/-
Verification of the simverse motion core: the command translator
(pythonRunner builtins / programBuilder), the trajectory integrator
(lib/trajectory.ts), the ray-based front sensor (sim/sensors) and the
goal evaluator (Mission1Layout / SimulatorView success check).

All numeric state is modelled over the real numbers; floating point is
idealised as exact real arithmetic.  JavaScript Infinity values that
arise in the rectangle slab intersection are modelled with EReal.
-/
import Mathlib

noncomputable section

namespace Simverse

open Real

/-- Pose of the robot: position in meters, heading in radians
(src/lib/programTypes.ts, RobotPose). -/
@[ext]
structure RobotPose where
  x : ℝ
  y : ℝ
  theta : ℝ

/-- Motion primitive (src/lib/programTypes.ts, RobotPrimitive):
a constant-velocity drive segment or an instantaneous teleport. -/
inductive RobotPrimitive where
  | drive (v w duration : ℝ)
  | set_pose (pose : RobotPose)

/-- One row of a trajectory (src/lib/trajectory.ts, PoseSample). -/
@[ext]
structure PoseSample where
  t : ℝ
  x : ℝ
  y : ℝ
  theta : ℝ

/-- One forward-Euler integration step of the body of the inner loop of
buildTrajectory (src/lib/trajectory.ts lines 37-42): x and y advance
using the pre-step heading, then theta and t advance. -/
def eulerStep (v w dtStep : ℝ) (s : PoseSample) : PoseSample :=
  { t := s.t + dtStep
    x := s.x + v * Real.cos s.theta * dtStep
    y := s.y + v * Real.sin s.theta * dtStep
    theta := s.theta + w * dtStep }

/-- JavaScript Math.round for the non-negative arguments used here:
round half up, i.e. the floor of x + 1/2. -/
def jsRound (x : ℝ) : ℤ := ⌊x + 1 / 2⌋

/-- Step count of a drive segment
(src/lib/trajectory.ts line 27: Math.max(1, Math.round(duration / dt))). -/
def stepsFor (duration dt : ℝ) : ℕ := max 1 (jsRound (duration / dt)).toNat

/-- The inner per-step loop of buildTrajectory (lines 30-43): runs n Euler
steps from state s, returning the list of pushed samples and the final
integration state. -/
def driveLoop (v w dtStep : ℝ) : ℕ → PoseSample → List PoseSample × PoseSample
  | 0, s => ([], s)
  | n + 1, s =>
      let s1 := eulerStep v w dtStep s
      let r := driveLoop v w dtStep n s1
      (s1 :: r.1, r.2)

/-- The primitive loop of buildTrajectory (src/lib/trajectory.ts lines
22-51), threading the current integration state: drive primitives with
duration <= 0 are skipped, positive-duration drives run the Euler loop
with the adjusted per-step dt, and set_pose overwrites the pose and
pushes a single sample at the current time. -/
def buildTrajectoryAux (dt : ℝ) : List RobotPrimitive → PoseSample → List PoseSample
  | [], _ => []
  | .drive v w duration :: rest, s =>
      if duration ≤ 0 then buildTrajectoryAux dt rest s
      else
        let n := stepsFor duration dt
        let dtStep := duration / n
        let r := driveLoop v w dtStep n s
        r.1 ++ buildTrajectoryAux dt rest r.2
  | .set_pose p :: rest, s =>
      let s1 : PoseSample := { t := s.t, x := p.x, y := p.y, theta := p.theta }
      s1 :: buildTrajectoryAux dt rest s1

/-- The initial sample pushed at line 20 of src/lib/trajectory.ts. -/
def startSample (startPose : RobotPose) : PoseSample :=
  { t := 0, x := startPose.x, y := startPose.y, theta := startPose.theta }

/-- buildTrajectory (src/lib/trajectory.ts lines 10-54). -/
def buildTrajectory (program : List RobotPrimitive) (startPose : RobotPose)
    (dt : ℝ) : List PoseSample :=
  startSample startPose :: buildTrajectoryAux dt program (startSample startPose)

/-- The integration state after consuming a primitive list, i.e. the value
of (t, x, y, theta) at the end of the loop of buildTrajectory. -/
def finState (dt : ℝ) : List RobotPrimitive → PoseSample → PoseSample
  | [], s => s
  | .drive v w duration :: rest, s =>
      if duration ≤ 0 then finState dt rest s
      else
        finState dt rest
          (driveLoop v w (duration / (stepsFor duration dt)) (stepsFor duration dt) s).2
  | .set_pose p :: rest, s =>
      finState dt rest { t := s.t, x := p.x, y := p.y, theta := p.theta }

/-- Last sample of a built trajectory (trajectory[trajectory.length - 1]
in the consumers); the trajectory is never empty so the default is
irrelevant. -/
def finalSample (program : List RobotPrimitive) (startPose : RobotPose)
    (dt : ℝ) : PoseSample :=
  (buildTrajectory program startPose dt).getLastD (startSample startPose)

/-- Forgets the timestamp of a sample. -/
def poseOf (s : PoseSample) : RobotPose := { x := s.x, y := s.y, theta := s.theta }

/-! ### Execution host (src/lib/pythonRunner.ts) -/

/-- updatePose (src/lib/pythonRunner.ts lines 28-38): the host advances its
incrementally tracked pose with a single Euler step over the whole
command duration; for w = 0 it moves straight, otherwise it only
rotates in place. -/
def updatePose (v w dt : ℝ) (p : RobotPose) : RobotPose :=
  if w = 0 then
    { x := p.x + v * Real.cos p.theta * dt
      y := p.y + v * Real.sin p.theta * dt
      theta := p.theta }
  else
    { x := p.x, y := p.y, theta := p.theta + w * dt }

/-- A call to one of the motion builtins exposed to scripts
(src/lib/pythonRunner.ts lines 41-79); get_front_distance is omitted as
it changes neither the pose nor the primitive list. -/
inductive BuiltinCall where
  | move_forward (dist : ℝ)
  | turn_left (angleDeg : ℝ)
  | turn_right (angleDeg : ℝ)
  | set_pose (x y thetaDeg : ℝ)

/-- The primitive pushed by one builtin call (the primitives.push lines of
src/lib/pythonRunner.ts): nominal speeds 0.25 m/s and 45 deg/s. -/
def emitPrim : BuiltinCall → RobotPrimitive
  | .move_forward d =>
      .drive (if 0 ≤ d then 0.25 else -0.25) 0 |d / 0.25|
  | .turn_left a =>
      .drive 0 (if 0 ≤ a then 45 * π / 180 else -(45 * π / 180)) |a / 45|
  | .turn_right a =>
      .drive 0 (if 0 ≤ a then -(45 * π / 180) else 45 * π / 180) |a / 45|
  | .set_pose x y thetaDeg =>
      .set_pose { x := x, y := y, theta := thetaDeg * π / 180 }

/-- The host-side pose update performed by one builtin call (the updatePose
calls of src/lib/pythonRunner.ts, and the direct overwrite in
set_pose). -/
def hostPose : BuiltinCall → RobotPose → RobotPose
  | .move_forward d, p =>
      updatePose (if 0 ≤ d then 0.25 else -0.25) 0 |d / 0.25| p
  | .turn_left a, p =>
      updatePose 0 (if 0 ≤ a then 45 * π / 180 else -(45 * π / 180)) |a / 45| p
  | .turn_right a, p =>
      updatePose 0 (if 0 ≤ a then -(45 * π / 180) else 45 * π / 180) |a / 45| p
  | .set_pose x y thetaDeg, _ =>
      { x := x, y := y, theta := thetaDeg * π / 180 }

/-- Effect of one builtin call on the host state (currentPose, primitives):
the primitive is appended and the pose updated, as in
src/lib/pythonRunner.ts lines 41-79. -/
def execCall (c : BuiltinCall) (st : RobotPose × List RobotPrimitive) :
    RobotPose × List RobotPrimitive :=
  (hostPose c st.1, st.2 ++ [emitPrim c])

/-- Runs a sequence of builtin calls from a start pose with an empty
primitive list, as runPython does for a script. -/
def runCalls (calls : List BuiltinCall) (start : RobotPose) :
    RobotPose × List RobotPrimitive :=
  calls.foldl (fun st c => execCall c st) (start, [])

/-! ### Command translator buildProgram (src/lib/programBuilder.ts) -/

/-- A parsed command (src/lib/pythonRunner.ts, RobotCommand). -/
structure RobotCommand where
  op : String
  arg : ℝ

/-- buildProgram (src/lib/programBuilder.ts): converts parsed commands into
drive primitives, dropping zero-argument commands. -/
def buildProgram (commands : List RobotCommand) : List RobotPrimitive :=
  commands.foldl
    (fun ps cmd =>
      if cmd.op = "move_forward" then
        if cmd.arg = 0 then ps
        else ps ++ [.drive (if 0 ≤ cmd.arg then 0.25 else -0.25) 0 |cmd.arg / 0.25|]
      else if cmd.op = "turn_left" then
        if cmd.arg = 0 then ps
        else
          ps ++ [.drive 0 (if 0 ≤ cmd.arg then 45 * π / 180 else -(45 * π / 180)) |cmd.arg / 45|]
      else if cmd.op = "turn_right" then
        if cmd.arg = 0 then ps
        else
          ps ++ [.drive 0 (if 0 ≤ cmd.arg then -(45 * π / 180) else 45 * π / 180) |cmd.arg / 45|]
      else ps)
    []

/-! ### Sensor / geometry model (src/sim/sensors, embedded in GridMapView.tsx) -/

/-- Circle obstacle. -/
structure Circle where
  x : ℝ
  y : ℝ
  radius : ℝ

/-- Axis-aligned rectangle obstacle given by center and size. -/
structure Rectangle where
  x : ℝ
  y : ℝ
  width : ℝ
  height : ℝ

/-- Obstacle union type. -/
inductive Obstacle where
  | circle (c : Circle)
  | rectangle (r : Rectangle)

/-- World geometry: the obstacle set. -/
structure WorldGeometry where
  obstacles : List Obstacle

/-- The local variable t_ca of intersectRayCircle: projection of the
origin-to-center vector L onto the ray direction. -/
def circleTca (origin dir : ℝ × ℝ) (c : Circle) : ℝ :=
  (c.x - origin.1) * dir.1 + (c.y - origin.2) * dir.2

/-- The local variable d2 of intersectRayCircle: squared length of L minus
the squared projection. -/
def circleD2 (origin dir : ℝ × ℝ) (c : Circle) : ℝ :=
  ((c.x - origin.1) * (c.x - origin.1) + (c.y - origin.2) * (c.y - origin.2)) -
    circleTca origin dir c * circleTca origin dir c

/-- The far root t1 = t_ca + thc of intersectRayCircle. -/
def circleFarRoot (origin dir : ℝ × ℝ) (c : Circle) : ℝ :=
  circleTca origin dir c +
    Real.sqrt (c.radius * c.radius - circleD2 origin dir c)

/-- intersectRayCircle (sensors module, GridMapView.tsx lines 552-581):
projection test followed by the smallest positive root; the far root is
returned when the origin is inside the circle. -/
def intersectRayCircle (origin dir : ℝ × ℝ) (c : Circle) : Option ℝ :=
  if c.radius * c.radius < circleD2 origin dir c then none
  else
    let thc := Real.sqrt (c.radius * c.radius - circleD2 origin dir c)
    let t0 := circleTca origin dir c - thc
    let t1 := circleTca origin dir c + thc
    if 0 < t0 then some t0
    else if 0 < t1 then some t1
    else none

/-- Final interval checks of intersectRayRectangle (GridMapView.tsx lines
618-626).  EReal models the JavaScript infinities of the initial slab
interval. -/
def rectFinish (tMin tMax : EReal) : Option EReal :=
  if tMax < tMin then none
  else if tMax < 0 then none
  else if 0 < tMin then some tMin
  else some tMax

/-- The y-slab update of intersectRayRectangle (lines 606-614). -/
def rectSlabY (origin dir : ℝ × ℝ) (minY maxY : ℝ) (tMin tMax : EReal) :
    Option EReal :=
  if dir.2 ≠ 0 then
    let ty1 := (minY - origin.2) / dir.2
    let ty2 := (maxY - origin.2) / dir.2
    rectFinish (max tMin ((min ty1 ty2 : ℝ) : EReal))
      (min tMax ((max ty1 ty2 : ℝ) : EReal))
  else if origin.2 < minY ∨ maxY < origin.2 then none
  else rectFinish tMin tMax

/-- intersectRayRectangle (GridMapView.tsx lines 583-626): slab method with
tMin starting at -Infinity and tMax at +Infinity; the x slab is applied
first, then the y slab, then the interval checks. -/
def intersectRayRectangle (origin dir : ℝ × ℝ) (rect : Rectangle) :
    Option EReal :=
  let minX := rect.x - rect.width / 2
  let maxX := rect.x + rect.width / 2
  let minY := rect.y - rect.height / 2
  let maxY := rect.y + rect.height / 2
  if dir.1 ≠ 0 then
    let tx1 := (minX - origin.1) / dir.1
    let tx2 := (maxX - origin.1) / dir.1
    rectSlabY origin dir minY maxY ((min tx1 tx2 : ℝ) : EReal)
      ((max tx1 tx2 : ℝ) : EReal)
  else if origin.1 < minX ∨ maxX < origin.1 then none
  else rectSlabY origin dir minY maxY ⊥ ⊤

/-- Dispatch of the obstacle loop body of computeFrontDistance
(lines 483-490): circle hits are finite reals, rectangle hits may be
the JavaScript Infinity (EReal top). -/
def obstacleHit (origin dir : ℝ × ℝ) : Obstacle → Option EReal
  | .circle c => (intersectRayCircle origin dir c).map Real.toEReal
  | .rectangle r => intersectRayRectangle origin dir r

/-- One iteration of the minimum fold of computeFrontDistance
(lines 492-494): keep the hit distance when it is a new strict
minimum. -/
def sensorFold (origin dir : ℝ × ℝ) (minDist : ℝ) (obs : Obstacle) : ℝ :=
  match obstacleHit origin dir obs with
  | some d => if d < (minDist : EReal) then d.toReal else minDist
  | none => minDist

/-- computeFrontDistance (GridMapView.tsx lines 472-496): casts a ray along
the heading and folds the minimum hit distance over all obstacles,
starting from maxRange. -/
def computeFrontDistance (pose : RobotPose) (world : WorldGeometry)
    (maxRange : ℝ) : ℝ :=
  world.obstacles.foldl
    (sensorFold (pose.x, pose.y) (Real.cos pose.theta, Real.sin pose.theta))
    maxRange

/-! ### Goal evaluator (Mission1Layout.tsx lines 345-356,
SimulatorView.tsx lines 619-624) -/

/-- Circular goal acceptance region. -/
structure Goal where
  x : ℝ
  y : ℝ
  r : ℝ

/-- Last sample of a trajectory, with an arbitrary default for the empty
list (the consumers only evaluate non-empty trajectories). -/
def lastSample (traj : List PoseSample) : PoseSample :=
  traj.getLastD { t := 0, x := 0, y := 0, theta := 0 }

/-- The success check of Mission1Layout.tsx lines 345-356 (identical in
SimulatorView.tsx lines 619-624): Euclidean distance from the final
sample to the goal center, compared against the goal radius. -/
def evaluateGoal (traj : List PoseSample) (g : Goal) : Bool :=
  match traj.getLast? with
  | some finalPose =>
      decide (Real.sqrt ((finalPose.x - g.x) * (finalPose.x - g.x) +
        (finalPose.y - g.y) * (finalPose.y - g.y)) ≤ g.r)
  | none => false

/-! ### List helper lemmas -/

theorem getLastD_append {α : Type} (l1 l2 : List α) (d : α) :
    (l1 ++ l2).getLastD d = l2.getLastD (l1.getLastD d) := by
  induction l1 generalizing d with
  | nil => rfl
  | cons a l1 ih => simp only [List.cons_append, List.getLastD_cons, ih]

theorem getLast?_eq_getLastD {α : Type} (l : List α) (d : α) (h : l ≠ []) :
    l.getLast? = some (l.getLastD d) := by
  induction l generalizing d with
  | nil => exact absurd rfl h
  | cons a l ih =>
    cases l with
    | nil => rfl
    | cons b t =>
      rw [List.getLast?_cons_cons, List.getLastD_cons]
      exact ih a (by simp)

/-! ### Trajectory integrator lemmas -/

theorem stepsFor_pos (duration dt : ℝ) : 0 < stepsFor duration dt :=
  lt_of_lt_of_le one_pos (le_max_left _ _)

theorem driveLoop_getLastD (v w d : ℝ) :
    ∀ (n : ℕ) (s : PoseSample),
      ((driveLoop v w d n s).1).getLastD s = (driveLoop v w d n s).2
  | 0, _ => rfl
  | n + 1, s => by
    simp only [driveLoop, List.getLastD_cons]
    exact driveLoop_getLastD v w d n (eulerStep v w d s)

theorem driveLoop_snd_t (v w d : ℝ) :
    ∀ (n : ℕ) (s : PoseSample), ((driveLoop v w d n s).2).t = s.t + n * d
  | 0, s => by simp [driveLoop]
  | n + 1, s => by
    simp only [driveLoop]
    rw [driveLoop_snd_t v w d n]
    simp only [eulerStep]
    push_cast
    ring

theorem driveLoop_translation (v d : ℝ) :
    ∀ (n : ℕ) (s : PoseSample),
      (driveLoop v 0 d n s).2 =
        { t := s.t + n * d
          x := s.x + v * Real.cos s.theta * (n * d)
          y := s.y + v * Real.sin s.theta * (n * d)
          theta := s.theta }
  | 0, s => by
    simp only [driveLoop, Nat.cast_zero, zero_mul, mul_zero, add_zero]
  | n + 1, s => by
    simp only [driveLoop]
    rw [driveLoop_translation v d n]
    simp only [eulerStep, zero_mul, add_zero]
    ext <;> push_cast <;> ring

theorem driveLoop_rotation (w d : ℝ) :
    ∀ (n : ℕ) (s : PoseSample),
      (driveLoop 0 w d n s).2 =
        { t := s.t + n * d, x := s.x, y := s.y, theta := s.theta + w * (n * d) }
  | 0, s => by
    simp only [driveLoop, Nat.cast_zero, zero_mul, mul_zero, add_zero]
  | n + 1, s => by
    simp only [driveLoop]
    rw [driveLoop_rotation w d n]
    simp only [eulerStep, zero_mul, add_zero]
    ext <;> push_cast <;> ring

theorem buildTrajectoryAux_getLastD (dt : ℝ) :
    ∀ (l : List RobotPrimitive) (s : PoseSample),
      (buildTrajectoryAux dt l s).getLastD s = finState dt l s
  | [], _ => rfl
  | .drive v w duration :: rest, s => by
    by_cases h : duration ≤ 0
    · simp only [buildTrajectoryAux, finState, if_pos h]
      exact buildTrajectoryAux_getLastD dt rest s
    · simp only [buildTrajectoryAux, finState, if_neg h]
      rw [getLastD_append, driveLoop_getLastD]
      exact buildTrajectoryAux_getLastD dt rest _
  | .set_pose p :: rest, s => by
    simp only [buildTrajectoryAux, finState, List.getLastD_cons]
    exact buildTrajectoryAux_getLastD dt rest _

theorem finalSample_eq_finState (program : List RobotPrimitive)
    (start : RobotPose) (dt : ℝ) :
    finalSample program start dt = finState dt program (startSample start) := by
  unfold finalSample buildTrajectory
  rw [List.getLastD_cons]
  exact buildTrajectoryAux_getLastD dt program (startSample start)

theorem buildTrajectoryAux_append (dt : ℝ) :
    ∀ (l1 l2 : List RobotPrimitive) (s : PoseSample),
      buildTrajectoryAux dt (l1 ++ l2) s =
        buildTrajectoryAux dt l1 s ++ buildTrajectoryAux dt l2 (finState dt l1 s)
  | [], _, _ => rfl
  | .drive v w duration :: rest, l2, s => by
    by_cases h : duration ≤ 0
    · simp only [List.cons_append, buildTrajectoryAux, finState, if_pos h]
      exact buildTrajectoryAux_append dt rest l2 s
    · simp only [List.cons_append, buildTrajectoryAux, finState, if_neg h, List.append_eq]
      rw [buildTrajectoryAux_append dt rest l2 _, List.append_assoc]
  | .set_pose p :: rest, l2, s => by
    simp only [List.cons_append, buildTrajectoryAux, finState, List.append_eq]
    rw [buildTrajectoryAux_append dt rest l2 _]

theorem finState_append (dt : ℝ) :
    ∀ (l1 l2 : List RobotPrimitive) (s : PoseSample),
      finState dt (l1 ++ l2) s = finState dt l2 (finState dt l1 s)
  | [], _, _ => rfl
  | .drive v w duration :: rest, l2, s => by
    by_cases h : duration ≤ 0
    · simp only [List.cons_append, finState, if_pos h]
      exact finState_append dt rest l2 s
    · simp only [List.cons_append, finState, if_neg h]
      exact finState_append dt rest l2 _
  | .set_pose p :: rest, l2, s => by
    simp only [List.cons_append, finState]
    exact finState_append dt rest l2 _

/-! ### Host-versus-integrator lemmas -/

theorem updatePose_zero_dt (v w : ℝ) (p : RobotPose) : updatePose v w 0 p = p := by
  unfold updatePose
  split_ifs <;> ext <;> simp

theorem finState_pureMove (v T : ℝ) (s : PoseSample) (dt : ℝ) (hT : 0 ≤ T) :
    poseOf (finState dt [RobotPrimitive.drive v 0 T] s) = updatePose v 0 T (poseOf s) := by
  rcases eq_or_lt_of_le hT with h0 | hpos
  · simp only [finState, if_pos (le_of_eq h0.symm)]
    rw [← h0, updatePose_zero_dt]
  · simp only [finState, if_neg (not_le.mpr hpos)]
    rw [driveLoop_translation]
    have hn : ((stepsFor T dt : ℕ) : ℝ) ≠ 0 :=
      Nat.cast_ne_zero.mpr (stepsFor_pos T dt).ne.symm
    rw [mul_comm ((stepsFor T dt : ℕ) : ℝ), div_mul_cancel₀ _ hn]
    simp [updatePose, poseOf]

theorem finState_pureTurn (w T : ℝ) (s : PoseSample) (dt : ℝ) (hT : 0 ≤ T) :
    poseOf (finState dt [RobotPrimitive.drive 0 w T] s) = updatePose 0 w T (poseOf s) := by
  rcases eq_or_lt_of_le hT with h0 | hpos
  · simp only [finState, if_pos (le_of_eq h0.symm)]
    rw [← h0, updatePose_zero_dt]
  · simp only [finState, if_neg (not_le.mpr hpos)]
    rw [driveLoop_rotation]
    have hn : ((stepsFor T dt : ℕ) : ℝ) ≠ 0 :=
      Nat.cast_ne_zero.mpr (stepsFor_pos T dt).ne.symm
    rw [mul_comm ((stepsFor T dt : ℕ) : ℝ), div_mul_cancel₀ _ hn]
    unfold updatePose poseOf
    split_ifs with hw
    · ext <;> simp [hw]
    · rfl

theorem finState_emit (c : BuiltinCall) (s : PoseSample) (dt : ℝ) :
    poseOf (finState dt [emitPrim c] s) = hostPose c (poseOf s) := by
  cases c with
  | move_forward d =>
    simp only [emitPrim, hostPose]
    exact finState_pureMove _ _ s dt (abs_nonneg _)
  | turn_left a =>
    simp only [emitPrim, hostPose]
    exact finState_pureTurn _ _ s dt (abs_nonneg _)
  | turn_right a =>
    simp only [emitPrim, hostPose]
    exact finState_pureTurn _ _ s dt (abs_nonneg _)
  | set_pose x y thetaDeg =>
    simp only [emitPrim, hostPose, finState, poseOf]

theorem runCalls_invariant (dt : ℝ) :
    ∀ (calls : List BuiltinCall) (st : RobotPose × List RobotPrimitive) (s : PoseSample),
      poseOf (finState dt st.2 s) = st.1 →
      poseOf (finState dt (calls.foldl (fun st c => execCall c st) st).2 s) =
        (calls.foldl (fun st c => execCall c st) st).1
  | [], _, _, h => h
  | c :: calls, st, s, h => by
    simp only [List.foldl_cons]
    apply runCalls_invariant dt calls _ s
    show poseOf (finState dt (st.2 ++ [emitPrim c]) s) = hostPose c st.1
    rw [finState_append, finState_emit, h]

/-! ### Claim theorems: translator and integrator -/

/-- Claim C1, counterexample: calling the move_forward builtin with argument
0 pushes one primitive onto the host primitive list (a zero-duration
drive), and so does turn_left with argument 0 — not zero primitives as
claimed. -/
theorem zero_command_emits_one_primitive :
    ((execCall (BuiltinCall.move_forward 0) (⟨0, 0, 0⟩, [])).2).length = 1 ∧
      ((execCall (BuiltinCall.turn_left 0) (⟨0, 0, 0⟩, [])).2).length = 1 :=
  ⟨rfl, rfl⟩

/-- Claim C1, amended: in the execution host (pythonRunner builtins),
move_forward(0), turn_left(0) and turn_right(0) each emit exactly one
drive primitive with duration 0; such zero-duration primitives are
skipped by the integrator and contribute zero trajectory samples.  The
standalone buildProgram translator (programBuilder.ts) does drop
zero-argument commands as the spec states. -/
theorem zero_command_amended (p : RobotPose) (l : List RobotPrimitive)
    (start : RobotPose) (dt : ℝ) :
    (execCall (BuiltinCall.move_forward 0) (p, l)).2 =
        l ++ [RobotPrimitive.drive 0.25 0 0] ∧
      (execCall (BuiltinCall.turn_left 0) (p, l)).2 =
        l ++ [RobotPrimitive.drive 0 (45 * π / 180) 0] ∧
      (execCall (BuiltinCall.turn_right 0) (p, l)).2 =
        l ++ [RobotPrimitive.drive 0 (-(45 * π / 180)) 0] ∧
      (∀ v w : ℝ, buildTrajectory [RobotPrimitive.drive v w 0] start dt =
        [startSample start]) ∧
      buildProgram [⟨"move_forward", 0⟩] = [] ∧
      buildProgram [⟨"turn_left", 0⟩] = [] ∧
      buildProgram [⟨"turn_right", 0⟩] = [] := by
  refine ⟨?_, ?_, ?_, fun v w => ?_, ?_, ?_, ?_⟩
  · simp [execCall, emitPrim]
  · simp [execCall, emitPrim]
  · simp [execCall, emitPrim]
  · simp [buildTrajectory, buildTrajectoryAux]
  · simp [buildProgram]
  · simp [buildProgram]
  · simp [buildProgram]

/-- Claim C3: for a single drive primitive of positive duration T and any
positive dt, the last sample of the built trajectory has t exactly
equal to T: the step count is max(1, round(T/dt)) and the per-step
increment T/steps, whose sum telescopes back to T. -/
theorem single_drive_duration_fidelity (v w T : ℝ) (start : RobotPose)
    (dt : ℝ) (hT : 0 < T) (_hdt : 0 < dt) :
    (finalSample [RobotPrimitive.drive v w T] start dt).t = T := by
  rw [finalSample_eq_finState]
  simp only [finState, if_neg (not_le.mpr hT)]
  rw [driveLoop_snd_t]
  have hn : ((stepsFor T dt : ℕ) : ℝ) ≠ 0 :=
    Nat.cast_ne_zero.mpr (stepsFor_pos T dt).ne.symm
  rw [mul_comm ((stepsFor T dt : ℕ) : ℝ), div_mul_cancel₀ _ hn]
  simp [startSample]

/-- Witness for claim C3 at v = 0.25, w = 0, T = 13, dt = 0.02. -/
theorem single_drive_duration_fidelity_witness :
    (0 : ℝ) < 13 ∧ (0 : ℝ) < 0.02 ∧
      (finalSample [RobotPrimitive.drive 0.25 0 13] ⟨0, 0, 0⟩ 0.02).t = 13 :=
  ⟨by norm_num, by norm_num,
    single_drive_duration_fidelity 0.25 0 13 ⟨0, 0, 0⟩ 0.02 (by norm_num) (by norm_num)⟩

/-- Claim C4: a set_pose primitive after any prefix appends exactly one
sample whose pose is the teleport pose and whose t equals the t of the
immediately preceding sample (the last sample of the prefix
trajectory); integration then continues from that teleported sample. -/
theorem set_pose_teleport (ps rest : List RobotPrimitive) (p : RobotPose)
    (start : RobotPose) (dt : ℝ) :
    buildTrajectory (ps ++ RobotPrimitive.set_pose p :: rest) start dt =
      buildTrajectory ps start dt ++
        { t := (finalSample ps start dt).t, x := p.x, y := p.y, theta := p.theta } ::
          buildTrajectoryAux dt rest
            { t := (finalSample ps start dt).t, x := p.x, y := p.y, theta := p.theta } := by
  unfold buildTrajectory
  rw [show RobotPrimitive.set_pose p :: rest = [RobotPrimitive.set_pose p] ++ rest from rfl,
    ← List.append_assoc, buildTrajectoryAux_append, buildTrajectoryAux_append,
    finalSample_eq_finState]
  rw [finState_append]
  simp only [buildTrajectoryAux, finState, List.cons_append, List.nil_append,
    List.append_assoc]

/-- Claim C8: every built trajectory is non-empty and begins with the start
pose at t = 0; for the empty primitive list the trajectory is exactly
that single sample. -/
theorem trajectory_starts_at_start (program : List RobotPrimitive)
    (start : RobotPose) (dt : ℝ) :
    buildTrajectory program start dt ≠ [] ∧
      (buildTrajectory program start dt).head? =
        some { t := 0, x := start.x, y := start.y, theta := start.theta } ∧
      buildTrajectory [] start dt =
        [{ t := 0, x := start.x, y := start.y, theta := start.theta }] :=
  ⟨by simp [buildTrajectory], rfl, rfl⟩

/-- Claim C9: after any sequence of builtin calls, the execution host's
incrementally tracked pose equals the pose of the final sample of
buildTrajectory applied to the emitted primitive list, for any positive
dt: sensor reads see the same pose that final playback reaches. -/
theorem host_pose_matches_final_sample (calls : List BuiltinCall)
    (start : RobotPose) (dt : ℝ) (_hdt : 0 < dt) :
    poseOf (finalSample (runCalls calls start).2 start dt) =
      (runCalls calls start).1 := by
  rw [finalSample_eq_finState]
  exact runCalls_invariant dt calls (start, []) (startSample start) rfl

/-- Witness for claim C9 at a two-call script and dt = 0.02. -/
theorem host_pose_matches_final_sample_witness :
    (0 : ℝ) < 0.02 ∧
      poseOf (finalSample
          (runCalls [BuiltinCall.move_forward 1, BuiltinCall.turn_left 90] ⟨0, 0, 0⟩).2
          ⟨0, 0, 0⟩ 0.02) =
        (runCalls [BuiltinCall.move_forward 1, BuiltinCall.turn_left 90] ⟨0, 0, 0⟩).1 :=
  ⟨by norm_num,
    host_pose_matches_final_sample [BuiltinCall.move_forward 1, BuiltinCall.turn_left 90]
      ⟨0, 0, 0⟩ 0.02 (by norm_num)⟩

/-- Claim C10, counterexample: buildTrajectory does not reject a negative
dt; at dt = -0.02 it silently returns an ordinary two-sample trajectory
for a one-second drive. -/
theorem negative_dt_returns_trajectory :
    buildTrajectory [RobotPrimitive.drive 0.25 0 1] ⟨0, 0, 0⟩ (-0.02) =
      [{ t := 0, x := 0, y := 0, theta := 0 },
        { t := 1, x := 0.25, y := 0, theta := 0 }] := by
  have hsteps : stepsFor 1 (-0.02) = 1 := by
    unfold stepsFor jsRound
    rw [show (1 : ℝ) / (-0.02) + 1 / 2 = -49.5 by norm_num]
    rw [show ⌊(-49.5 : ℝ)⌋ = -50 by
      rw [Int.floor_eq_iff]
      constructor <;> norm_num]
    rfl
  simp only [buildTrajectory, buildTrajectoryAux, startSample, hsteps]
  norm_num [driveLoop, eulerStep, Real.cos_zero, Real.sin_zero]

/-- Claim C10, amended: buildTrajectory performs no dt validation: for a
negative dt every positive-duration drive segment degenerates to
steps = max(1, round(T/dt)) = 1, a single Euler step spanning the whole
duration, and a trajectory is returned silently rather than any error
being raised. -/
theorem negative_dt_single_step (v w T : ℝ) (start : RobotPose) (dt : ℝ)
    (hdt : dt < 0) (hT : 0 < T) :
    buildTrajectory [RobotPrimitive.drive v w T] start dt =
      [startSample start, eulerStep v w T (startSample start)] := by
  have hsteps : stepsFor T dt = 1 := by
    unfold stepsFor jsRound
    have h1 : T / dt < 0 := div_neg_of_pos_of_neg hT hdt
    have h2 : ⌊T / dt + 1 / 2⌋ ≤ 0 := by
      have h3 : T / dt + 1 / 2 < ((1 : ℤ) : ℝ) := by push_cast; linarith
      have h4 := Int.floor_lt.mpr h3
      omega
    rw [Int.toNat_of_nonpos h2]
    simp
  simp only [buildTrajectory, buildTrajectoryAux, if_neg (not_le.mpr hT), hsteps]
  norm_num [driveLoop]

/-- Witness for the amended claim C10 at v = 1, w = 2, T = 3, dt = -1. -/
theorem negative_dt_single_step_witness :
    (-1 : ℝ) < 0 ∧ (0 : ℝ) < 3 ∧
      buildTrajectory [RobotPrimitive.drive 1 2 3] ⟨0, 0, 0⟩ (-1) =
        [startSample ⟨0, 0, 0⟩, eulerStep 1 2 3 (startSample ⟨0, 0, 0⟩)] :=
  ⟨by norm_num, by norm_num,
    negative_dt_single_step 1 2 3 ⟨0, 0, 0⟩ (-1) (by norm_num) (by norm_num)⟩

/-! ### Sensor model lemmas -/

theorem intersectRayCircle_pos {origin dir : ℝ × ℝ} {c : Circle} {d : ℝ}
    (h : intersectRayCircle origin dir c = some d) : 0 < d := by
  simp only [intersectRayCircle] at h
  split_ifs at h with h1 h2 h3
  · exact (Option.some.inj h) ▸ h2
  · exact (Option.some.inj h) ▸ h3

theorem rectFinish_nonneg {a b d : EReal} (h : rectFinish a b = some d) :
    0 ≤ d := by
  simp only [rectFinish] at h
  split_ifs at h with h1 h2 h3
  · exact (Option.some.inj h) ▸ le_of_lt h3
  · exact (Option.some.inj h) ▸ not_lt.mp h2

theorem rectSlabY_nonneg {origin dir : ℝ × ℝ} {minY maxY : ℝ}
    {tMin tMax : EReal} {d : EReal}
    (h : rectSlabY origin dir minY maxY tMin tMax = some d) : 0 ≤ d := by
  simp only [rectSlabY] at h
  split_ifs at h with h1 h2
  · exact rectFinish_nonneg h
  · exact rectFinish_nonneg h

theorem intersectRayRectangle_nonneg {origin dir : ℝ × ℝ} {rect : Rectangle}
    {d : EReal} (h : intersectRayRectangle origin dir rect = some d) :
    0 ≤ d := by
  simp only [intersectRayRectangle] at h
  split_ifs at h with h1 h2
  · exact rectSlabY_nonneg h
  · exact rectSlabY_nonneg h

theorem obstacleHit_nonneg {origin dir : ℝ × ℝ} {obs : Obstacle} {d : EReal}
    (h : obstacleHit origin dir obs = some d) : 0 ≤ d := by
  cases obs with
  | circle c =>
    cases hc : intersectRayCircle origin dir c with
    | none => simp [obstacleHit, hc] at h
    | some a =>
      simp only [obstacleHit, hc, Option.map_some'] at h
      rw [← Option.some.inj h]
      exact EReal.coe_nonneg.mpr (le_of_lt (intersectRayCircle_pos hc))
  | rectangle r => exact intersectRayRectangle_nonneg h

theorem sensorFold_bounds (origin dir : ℝ × ℝ) (m : ℝ) (obs : Obstacle)
    (hm : 0 ≤ m) :
    0 ≤ sensorFold origin dir m obs ∧ sensorFold origin dir m obs ≤ m := by
  unfold sensorFold
  split
  · rename_i d hob
    by_cases hd : d < (m : EReal)
    · rw [if_pos hd]
      have h0 : (0 : EReal) ≤ d := obstacleHit_nonneg hob
      have hdb : d ≠ ⊥ := by
        intro hb
        rw [hb] at h0
        exact absurd h0 (by simp)
      have hdt : d ≠ ⊤ := (hd.trans (EReal.coe_lt_top m)).ne
      constructor
      · have := EReal.toReal_le_toReal h0 (by simp) hdt
        rwa [EReal.toReal_zero] at this
      · have := EReal.toReal_le_toReal (le_of_lt hd) hdb (EReal.coe_ne_top m)
        rwa [EReal.toReal_coe] at this
    · rw [if_neg hd]
      exact ⟨hm, le_refl m⟩
  · exact ⟨hm, le_refl m⟩

theorem sensorFoldl_bounds (origin dir : ℝ × ℝ) :
    ∀ (l : List Obstacle) (m : ℝ), 0 ≤ m →
      0 ≤ l.foldl (sensorFold origin dir) m ∧
        l.foldl (sensorFold origin dir) m ≤ m
  | [], m, hm => ⟨hm, le_refl m⟩
  | obs :: l, m, hm => by
    simp only [List.foldl_cons]
    obtain ⟨h1, h2⟩ := sensorFold_bounds origin dir m obs hm
    obtain ⟨h3, h4⟩ := sensorFoldl_bounds origin dir l (sensorFold origin dir m obs) h1
    exact ⟨h3, le_trans h4 h2⟩

theorem sensorFoldl_miss (origin dir : ℝ × ℝ) :
    ∀ (l : List Obstacle) (m : ℝ),
      (∀ obs ∈ l, ∀ d : EReal,
        obstacleHit origin dir obs = some d → (m : EReal) ≤ d) →
      l.foldl (sensorFold origin dir) m = m
  | [], _, _ => rfl
  | obs :: l, m, h => by
    have hstep : sensorFold origin dir m obs = m := by
      unfold sensorFold
      split
      · rename_i d hob
        rw [if_neg (not_lt.mpr (h obs (List.mem_cons_self obs l) d hob))]
      · rfl
    simp only [List.foldl_cons, hstep]
    exact sensorFoldl_miss origin dir l m
      (fun o ho d hd => h o (List.mem_cons_of_mem obs ho) d hd)

theorem rectFinish_straddle {a b : EReal} (ha : a < 0) (hb : 0 < b) :
    rectFinish a b = some b := by
  unfold rectFinish
  rw [if_neg (not_lt.mpr (le_of_lt (lt_trans ha hb))),
    if_neg (not_lt.mpr (le_of_lt hb)), if_neg (not_lt.mpr (le_of_lt ha))]

theorem slab_min_max {lo hi o d : ℝ} (h1 : lo < o) (h2 : o < hi)
    (hd : d ≠ 0) :
    min ((lo - o) / d) ((hi - o) / d) < 0 ∧
      0 < max ((lo - o) / d) ((hi - o) / d) := by
  have hlo : lo - o < 0 := by linarith
  have hhi : 0 < hi - o := by linarith
  rcases lt_or_gt_of_ne hd with hneg | hpos
  · constructor
    · exact lt_of_le_of_lt (min_le_right _ _) (div_neg_of_pos_of_neg hhi hneg)
    · exact lt_of_lt_of_le (div_pos_of_neg_of_neg hlo hneg) (le_max_left _ _)
  · constructor
    · exact lt_of_le_of_lt (min_le_left _ _) (div_neg_of_neg_of_pos hlo hpos)
    · exact lt_of_lt_of_le (div_pos hhi hpos) (le_max_right _ _)

theorem coe_neg_lt_zero {x : ℝ} (h : x < 0) : (x : EReal) < 0 := by
  rw [← EReal.coe_zero]
  exact EReal.coe_lt_coe_iff.mpr h

theorem zero_lt_coe {x : ℝ} (h : 0 < x) : (0 : EReal) < x := by
  rw [← EReal.coe_zero]
  exact EReal.coe_lt_coe_iff.mpr h

theorem rectSlabY_inside {origin dir : ℝ × ℝ} {minY maxY : ℝ}
    {tMin tMax : EReal} (hy1 : minY < origin.2) (hy2 : origin.2 < maxY)
    (ha : tMin < 0) (hb : 0 < tMax) :
    ∃ d : EReal, rectSlabY origin dir minY maxY tMin tMax = some d ∧ 0 < d := by
  unfold rectSlabY
  by_cases hdy : dir.2 ≠ 0
  · rw [if_pos hdy]
    obtain ⟨hmin, hmax⟩ := slab_min_max hy1 hy2 hdy
    have ha2 : max tMin ((min ((minY - origin.2) / dir.2) ((maxY - origin.2) / dir.2) : ℝ) : EReal) < 0 :=
      max_lt ha (coe_neg_lt_zero hmin)
    have hb2 : (0 : EReal) < min tMax ((max ((minY - origin.2) / dir.2) ((maxY - origin.2) / dir.2) : ℝ) : EReal) :=
      lt_min hb (zero_lt_coe hmax)
    exact ⟨_, rectFinish_straddle ha2 hb2, hb2⟩
  · rw [if_neg hdy, if_neg (by push_neg; exact ⟨le_of_lt hy1, le_of_lt hy2⟩)]
    exact ⟨tMax, rectFinish_straddle ha hb, hb⟩

/-! ### Claim theorems: sensor model -/

/-- Claim C5: for every pose, obstacle set (degenerate geometry included)
and non-negative maxRange, computeFrontDistance returns a value in
[0, maxRange]; it returns exactly maxRange when no obstacle hit lies
strictly within range; and every hit distance produced by the circle
and rectangle intersection helpers is non-negative. -/
theorem sensor_output_clamped (pose : RobotPose) (world : WorldGeometry)
    (maxRange : ℝ) (h : 0 ≤ maxRange) :
    0 ≤ computeFrontDistance pose world maxRange ∧
      computeFrontDistance pose world maxRange ≤ maxRange ∧
      ((∀ obs ∈ world.obstacles, ∀ d : EReal,
          obstacleHit (pose.x, pose.y) (Real.cos pose.theta, Real.sin pose.theta) obs =
            some d → (maxRange : EReal) ≤ d) →
        computeFrontDistance pose world maxRange = maxRange) ∧
      (∀ (origin dir : ℝ × ℝ) (c : Circle) (d : ℝ),
        intersectRayCircle origin dir c = some d → 0 ≤ d) ∧
      (∀ (origin dir : ℝ × ℝ) (rect : Rectangle) (d : EReal),
        intersectRayRectangle origin dir rect = some d → 0 ≤ d) := by
  unfold computeFrontDistance
  exact ⟨(sensorFoldl_bounds _ _ _ _ h).1, (sensorFoldl_bounds _ _ _ _ h).2,
    fun hmiss => sensorFoldl_miss _ _ _ _ hmiss,
    fun _ _ _ _ hd => le_of_lt (intersectRayCircle_pos hd),
    fun _ _ _ _ hd => intersectRayRectangle_nonneg hd⟩

/-- Witness for claim C5 at the origin pose, an obstacle-free world and
maxRange 5 (where the sensor returns exactly 5). -/
theorem sensor_output_clamped_witness :
    (0 : ℝ) ≤ 5 ∧
      (0 ≤ computeFrontDistance ⟨0, 0, 0⟩ ⟨[]⟩ 5 ∧
        computeFrontDistance ⟨0, 0, 0⟩ ⟨[]⟩ 5 ≤ 5 ∧
        ((∀ obs ∈ (⟨[]⟩ : WorldGeometry).obstacles, ∀ d : EReal,
            obstacleHit ((⟨0, 0, 0⟩ : RobotPose).x, (⟨0, 0, 0⟩ : RobotPose).y)
                (Real.cos (⟨0, 0, 0⟩ : RobotPose).theta,
                  Real.sin (⟨0, 0, 0⟩ : RobotPose).theta) obs =
              some d → ((5 : ℝ) : EReal) ≤ d) →
          computeFrontDistance ⟨0, 0, 0⟩ ⟨[]⟩ 5 = 5) ∧
        (∀ (origin dir : ℝ × ℝ) (c : Circle) (d : ℝ),
          intersectRayCircle origin dir c = some d → 0 ≤ d) ∧
        (∀ (origin dir : ℝ × ℝ) (rect : Rectangle) (d : EReal),
          intersectRayRectangle origin dir rect = some d → 0 ≤ d)) :=
  ⟨by norm_num, sensor_output_clamped ⟨0, 0, 0⟩ ⟨[]⟩ 5 (by norm_num)⟩

/-- Claim C6: with the single circle obstacle centered at (3, 0) of radius
1, the front sensor at the origin facing east (theta = 0) with maxRange
5 returns exactly 2, and facing west (theta = pi) returns exactly 5 (a
miss). -/
theorem sensor_round_trip :
    computeFrontDistance ⟨0, 0, 0⟩ ⟨[Obstacle.circle ⟨3, 0, 1⟩]⟩ 5 = 2 ∧
      computeFrontDistance ⟨0, 0, π⟩ ⟨[Obstacle.circle ⟨3, 0, 1⟩]⟩ 5 = 5 := by
  have hc1 : intersectRayCircle (0, 0) (1, 0) ⟨3, 0, 1⟩ = some 2 := by
    simp only [intersectRayCircle, circleTca, circleD2]
    norm_num
  have hc2 : intersectRayCircle (0, 0) (-1, 0) ⟨3, 0, 1⟩ = none := by
    simp only [intersectRayCircle, circleTca, circleD2]
    norm_num
  constructor
  · simp only [computeFrontDistance, List.foldl_cons, List.foldl_nil, sensorFold,
      obstacleHit, Real.cos_zero, Real.sin_zero, hc1, Option.map_some']
    rw [if_pos (by rw [EReal.coe_lt_coe_iff]; norm_num)]
    exact EReal.toReal_coe 2
  · simp only [computeFrontDistance, List.foldl_cons, List.foldl_nil, sensorFold,
      obstacleHit, Real.cos_pi, Real.sin_pi, hc2, Option.map_none']

/-- Claim C7: a ray whose origin lies strictly inside an obstacle gets the
positive exit distance, never 0: for a circle the far root
t_ca + sqrt(r^2 - d^2) is returned, and for a rectangle the positive
exit parameter tMax. -/
theorem inside_obstacle_positive_exit :
    (∀ (origin dir : ℝ × ℝ) (c : Circle),
        (c.x - origin.1) * (c.x - origin.1) + (c.y - origin.2) * (c.y - origin.2) <
          c.radius * c.radius →
        intersectRayCircle origin dir c = some (circleFarRoot origin dir c) ∧
          0 < circleFarRoot origin dir c) ∧
      (∀ (origin dir : ℝ × ℝ) (rect : Rectangle),
        rect.x - rect.width / 2 < origin.1 → origin.1 < rect.x + rect.width / 2 →
        rect.y - rect.height / 2 < origin.2 → origin.2 < rect.y + rect.height / 2 →
        ∃ d : EReal, intersectRayRectangle origin dir rect = some d ∧ 0 < d) := by
  constructor
  · intro origin dir c hin
    have hd2le : circleD2 origin dir c ≤
        (c.x - origin.1) * (c.x - origin.1) + (c.y - origin.2) * (c.y - origin.2) := by
      unfold circleD2
      nlinarith [mul_self_nonneg (circleTca origin dir c)]
    have hguard : ¬ (c.radius * c.radius < circleD2 origin dir c) :=
      not_lt.mpr (le_of_lt (lt_of_le_of_lt hd2le hin))
    have hkey : circleTca origin dir c * circleTca origin dir c <
        c.radius * c.radius - circleD2 origin dir c := by
      unfold circleD2
      linarith
    have habs : |circleTca origin dir c| <
        Real.sqrt (c.radius * c.radius - circleD2 origin dir c) := by
      rw [Real.lt_sqrt (abs_nonneg _), sq_abs, pow_two]
      exact hkey
    have ht0 : ¬ (0 < circleTca origin dir c -
        Real.sqrt (c.radius * c.radius - circleD2 origin dir c)) := by
      have := le_abs_self (circleTca origin dir c)
      push_neg
      linarith
    have ht1 : 0 < circleTca origin dir c +
        Real.sqrt (c.radius * c.radius - circleD2 origin dir c) := by
      have := neg_abs_le (circleTca origin dir c)
      linarith
    refine ⟨?_, ht1⟩
    simp only [intersectRayCircle]
    rw [if_neg hguard, if_neg ht0, if_pos ht1]
    rfl
  · intro origin dir rect hx1 hx2 hy1 hy2
    unfold intersectRayRectangle
    by_cases hdx : dir.1 ≠ 0
    · rw [if_pos hdx]
      obtain ⟨hmin, hmax⟩ := slab_min_max hx1 hx2 hdx
      exact rectSlabY_inside hy1 hy2 (coe_neg_lt_zero hmin) (zero_lt_coe hmax)
    · rw [if_neg hdx, if_neg (by push_neg; exact ⟨le_of_lt hx1, le_of_lt hx2⟩)]
      refine rectSlabY_inside hy1 hy2 ?_ ?_
      · rw [← EReal.coe_zero]
        exact EReal.bot_lt_coe 0
      · rw [← EReal.coe_zero]
        exact EReal.coe_lt_top 0

/-- Witness for claim C7: the unit circle at the origin and the 2-by-2
square at the origin, each probed from their interior point (0, 0)
towards east. -/
theorem inside_obstacle_positive_exit_witness :
    (intersectRayCircle (0, 0) (1, 0) ⟨0, 0, 1⟩ =
        some (circleFarRoot (0, 0) (1, 0) ⟨0, 0, 1⟩) ∧
      0 < circleFarRoot (0, 0) (1, 0) ⟨0, 0, 1⟩) ∧
      (∃ d : EReal, intersectRayRectangle (0, 0) (1, 0) ⟨0, 0, 2, 2⟩ = some d ∧ 0 < d) :=
  ⟨inside_obstacle_positive_exit.1 (0, 0) (1, 0) ⟨0, 0, 1⟩ (by norm_num),
    inside_obstacle_positive_exit.2 (0, 0) (1, 0) ⟨0, 0, 2, 2⟩
      (by norm_num) (by norm_num) (by norm_num) (by norm_num)⟩

/-! ### Claim theorems: goal evaluator -/

theorem evaluateGoal_eq_decide (traj : List PoseSample) (g : Goal)
    (h : traj ≠ []) :
    evaluateGoal traj g =
      decide (Real.sqrt (((lastSample traj).x - g.x) * ((lastSample traj).x - g.x) +
        ((lastSample traj).y - g.y) * ((lastSample traj).y - g.y)) ≤ g.r) := by
  unfold evaluateGoal lastSample
  rw [getLast?_eq_getLastD traj _ h]

/-- Claim C2: on a non-empty trajectory the outcome depends only on the
final PoseSample, success holds iff the Euclidean distance from the
final sample to the goal center is at most the radius; distance exactly
r gives success and distance strictly above r gives failure. -/
theorem goal_eval_final_sample (traj : List PoseSample) (g : Goal)
    (h : traj ≠ []) :
    (∀ traj2, traj2 ≠ [] → lastSample traj2 = lastSample traj →
        evaluateGoal traj2 g = evaluateGoal traj g) ∧
      (evaluateGoal traj g = true ↔
        Real.sqrt (((lastSample traj).x - g.x) * ((lastSample traj).x - g.x) +
          ((lastSample traj).y - g.y) * ((lastSample traj).y - g.y)) ≤ g.r) ∧
      (Real.sqrt (((lastSample traj).x - g.x) * ((lastSample traj).x - g.x) +
          ((lastSample traj).y - g.y) * ((lastSample traj).y - g.y)) = g.r →
        evaluateGoal traj g = true) ∧
      (g.r < Real.sqrt (((lastSample traj).x - g.x) * ((lastSample traj).x - g.x) +
          ((lastSample traj).y - g.y) * ((lastSample traj).y - g.y)) →
        evaluateGoal traj g = false) := by
  refine ⟨?_, ?_, ?_, ?_⟩
  · intro traj2 h2 hlast
    rw [evaluateGoal_eq_decide traj2 g h2, evaluateGoal_eq_decide traj g h, hlast]
  · rw [evaluateGoal_eq_decide traj g h]
    exact decide_eq_true_iff
  · intro heq
    rw [evaluateGoal_eq_decide traj g h]
    exact decide_eq_true (le_of_eq heq)
  · intro hgt
    rw [evaluateGoal_eq_decide traj g h]
    exact decide_eq_false (not_le.mpr hgt)

/-- Witness for claim C2 at the single-sample trajectory ending at (3, 4)
against the goal disk of radius 5 centered at the origin. -/
theorem goal_eval_final_sample_witness :
    ([(⟨0, 3, 4, 0⟩ : PoseSample)] ≠ []) ∧
      ((∀ traj2, traj2 ≠ [] →
          lastSample traj2 = lastSample [(⟨0, 3, 4, 0⟩ : PoseSample)] →
          evaluateGoal traj2 ⟨0, 0, 5⟩ =
            evaluateGoal [(⟨0, 3, 4, 0⟩ : PoseSample)] ⟨0, 0, 5⟩) ∧
        (evaluateGoal [(⟨0, 3, 4, 0⟩ : PoseSample)] ⟨0, 0, 5⟩ = true ↔
          Real.sqrt (((lastSample [(⟨0, 3, 4, 0⟩ : PoseSample)]).x - (0 : ℝ)) *
              ((lastSample [(⟨0, 3, 4, 0⟩ : PoseSample)]).x - (0 : ℝ)) +
            ((lastSample [(⟨0, 3, 4, 0⟩ : PoseSample)]).y - (0 : ℝ)) *
              ((lastSample [(⟨0, 3, 4, 0⟩ : PoseSample)]).y - (0 : ℝ))) ≤ (5 : ℝ)) ∧
        (Real.sqrt (((lastSample [(⟨0, 3, 4, 0⟩ : PoseSample)]).x - (0 : ℝ)) *
              ((lastSample [(⟨0, 3, 4, 0⟩ : PoseSample)]).x - (0 : ℝ)) +
            ((lastSample [(⟨0, 3, 4, 0⟩ : PoseSample)]).y - (0 : ℝ)) *
              ((lastSample [(⟨0, 3, 4, 0⟩ : PoseSample)]).y - (0 : ℝ))) = (5 : ℝ) →
          evaluateGoal [(⟨0, 3, 4, 0⟩ : PoseSample)] ⟨0, 0, 5⟩ = true) ∧
        ((5 : ℝ) < Real.sqrt (((lastSample [(⟨0, 3, 4, 0⟩ : PoseSample)]).x - (0 : ℝ)) *
              ((lastSample [(⟨0, 3, 4, 0⟩ : PoseSample)]).x - (0 : ℝ)) +
            ((lastSample [(⟨0, 3, 4, 0⟩ : PoseSample)]).y - (0 : ℝ)) *
              ((lastSample [(⟨0, 3, 4, 0⟩ : PoseSample)]).y - (0 : ℝ))) →
          evaluateGoal [(⟨0, 3, 4, 0⟩ : PoseSample)] ⟨0, 0, 5⟩ = false)) :=
  ⟨by simp, goal_eval_final_sample [(⟨0, 3, 4, 0⟩ : PoseSample)] ⟨0, 0, 5⟩ (by simp)⟩

end Simverse
